import Mathlib

/-!
# Verification of the agent-crx event-collection daemon core

A shallow embedding of the daemon core of `agent-crx` (files `src/daemon.ts`,
`src/snapshot.ts`, `src/click.ts`, `src/events.ts`) together with proofs of the
specified properties: the ring buffer, the query engine (error classification,
frequency annotation, status filtering), the snapshot reference table, the
snapshot capacity policy and selector synthesis, and the reconnection state
machine.

Conventions of the embedding:
* TypeScript class state becomes a structure; methods become functions
  returning the updated structure.
* JavaScript numbers that are always non-negative integers in the source
  (array indices, counts, HTTP statuses) are `Nat`; values that the source
  compares against `0` where a caller may pass a negative number (the `limit`
  argument of `RingBuffer.query`) are `Int`.
* JavaScript strings are Lean `String`s; the JS builtins used by the source
  (`<=` on strings, `split`, `trim`, `endsWith`, `parseInt`) are modelled as
  functions on the underlying character list with JS semantics.
* A JS `Map` is modelled as a function to `Option`, `Map.set` as pointwise
  update, matching the observable get/set behaviour of the source.
-/

namespace AgentCrx

/-! ## Ring buffer (src/daemon.ts, class RingBuffer)

```ts
export class RingBuffer<T> {
  private items: (T | undefined)[];
  private head = 0;
  private count = 0;
  constructor(private capacity: number) { this.items = new Array(capacity); }
  push(item: T): void {
    this.items[this.head] = item;
    this.head = (this.head + 1) % this.capacity;
    if (this.count < this.capacity) this.count++;
  }
  query(filter?: (item: T) => boolean, limit?: number): T[] {
    const result: T[] = [];
    const start = (this.head - this.count + this.capacity) % this.capacity;
    for (let i = 0; i < this.count; i++) {
      const item = this.items[(start + i) % this.capacity]!;
      if (!filter || filter(item)) result.push(item);
    }
    if (limit && limit > 0) return result.slice(-limit);
    return result;
  }
  clear(): void { this.items = new Array(this.capacity); this.head = 0; this.count = 0; }
  get size(): number { return this.count; }
}
```
-/

structure RingBuffer (T : Type) where
  capacity : Nat
  items : List (Option T)
  head : Nat
  count : Nat
deriving Repr

namespace RingBuffer

/-- `new RingBuffer(capacity)`: `new Array(capacity)` is a length-`capacity`
array with every slot empty. -/
def make (T : Type) (capacity : Nat) : RingBuffer T :=
  ⟨capacity, List.replicate capacity none, 0, 0⟩

def push (b : RingBuffer T) (item : T) : RingBuffer T :=
  { b with
    items := b.items.set b.head (some item)
    head := (b.head + 1) % b.capacity
    count := if b.count < b.capacity then b.count + 1 else b.count }

/-- `(this.head - this.count + this.capacity) % this.capacity`; written with
the addition first so the subtraction is exact whenever `count ≤ capacity`,
which is an invariant of the class. -/
def start (b : RingBuffer T) : Nat :=
  (b.head + b.capacity - b.count) % b.capacity

/-- `this.items[(start + i) % this.capacity]` -/
def slot (b : RingBuffer T) (i : Nat) : Option T :=
  (b.items[(b.start + i) % b.capacity]?).join

/-- The filtering loop body of `query`.  The source reads each slot with a
non-null assertion (`this.items[...]!`); the `none` branch models an
unoccupied slot and is unreachable for any buffer reached by `push`es, since
the loop only visits the `count` most recently written slots. -/
def collect (b : RingBuffer T) (f : T → Bool) : List T :=
  (List.range b.count).filterMap fun i =>
    match b.slot i with
    | some item => if f item then some item else none
    | none => none

/-- `query(filter?, limit?)`.  `limit && limit > 0` is truthy exactly for a
strictly positive number, and `result.slice(-limit)` is the suffix of length
`limit`. -/
def query (b : RingBuffer T) (filter : Option (T → Bool)) (limit : Option Int) :
    List T :=
  let result := b.collect fun item =>
    match filter with
    | some f => f item
    | none => true
  match limit with
  | some l => if 0 < l then result.drop (result.length - l.toNat) else result
  | none => result

def clear (b : RingBuffer T) : RingBuffer T :=
  { b with items := List.replicate b.capacity none, head := 0, count := 0 }

def size (b : RingBuffer T) : Nat := b.count

/-- Pushing a whole list, left to right (a sequence of `push` calls). -/
def pushAll (b : RingBuffer T) (xs : List T) : RingBuffer T :=
  xs.foldl push b

/-- Abstraction relation: buffer `b` currently holds exactly the items of `l`,
oldest first. -/
def Rep (b : RingBuffer T) (l : List T) : Prop :=
  b.items.length = b.capacity ∧ b.head < b.capacity ∧ b.count ≤ b.capacity ∧
    l.length = b.count ∧ ∀ i, i < b.count → b.slot i = l[i]?

instance {T : Type} [DecidableEq T] (b : RingBuffer T) (l : List T) :
    Decidable (b.Rep l) := by
  unfold Rep
  infer_instance

end RingBuffer

/-! ## JavaScript builtins used by the daemon

The source manipulates JS strings with `<=`, `split(",")`, `trim()`,
`endsWith`, `parseInt` and `Map`.  These platform builtins are modelled here
over the string's character list with JS semantics.
-/

/-- JS `a <= b` on strings: lexicographic comparison of the code-unit
sequences (identical to character-wise comparison for the ASCII ISO-8601
timestamps the daemon stores). -/
def jsLeChars : List Char → List Char → Bool
  | [], _ => true
  | _ :: _, [] => false
  | x :: xs, y :: ys => if x < y then true else if y < x then false else jsLeChars xs ys

/-- JS `a <= b` (equivalently `b >= a`) on strings. -/
def jsLe (a b : String) : Bool := jsLeChars a.data b.data

/-- JS `String.prototype.trim`. -/
def jsTrim (s : String) : String :=
  ⟨((s.data.dropWhile Char.isWhitespace).reverse.dropWhile Char.isWhitespace).reverse⟩

/-- Helper for `jsSplitComma`: split a character list at every comma. -/
def splitCommaChars : List Char → List (List Char)
  | [] => [[]]
  | c :: rest =>
    match splitCommaChars rest, c with
    | r, ',' => [] :: r
    | [], _ => [[c]]
    | h :: t, _ => (c :: h) :: t

/-- JS `s.split(",")`. -/
def jsSplitComma (s : String) : List String :=
  (splitCommaChars s.data).map fun l => ⟨l⟩

/-- JS `s.endsWith(t)`. -/
def jsEndsWith (s t : String) : Bool :=
  t.data.reverse.isPrefixOf s.data.reverse

/-- Decimal value of a digit character list. -/
def parseIntDigits (ds : List Char) : Nat :=
  ds.foldl (fun a c => a * 10 + (c.toNat - 48)) 0

/-- JS `parseInt(s, 10)`: skip whitespace, optional sign, then the longest
decimal-digit run; `NaN` (none) when no digit follows.  (`NaN` compares
unequal to every number, which the call sites rely on.) -/
def jsParseInt (s : String) : Option Int :=
  match s.data.dropWhile Char.isWhitespace with
  | '-' :: rest =>
    let ds := rest.takeWhile Char.isDigit
    if ds.isEmpty then none else some (-(parseIntDigits ds : Int))
  | '+' :: rest =>
    let ds := rest.takeWhile Char.isDigit
    if ds.isEmpty then none else some (parseIntDigits ds : Int)
  | t =>
    let ds := t.takeWhile Char.isDigit
    if ds.isEmpty then none else some (parseIntDigits ds : Int)

/-! ## Buffered events (src/events.ts + src/daemon.ts)

`BufferedEvent = ExtEventWithoutSession & { source: "page" | "extension" | "unknown" }`.
The `ts` field is the ISO-8601 wall-clock string produced by `now()`;
the daemon compares timestamps with JS string `>=`, modelled by `jsLe`. -/

inductive Level
  | log
  | info
  | warn
  | error
  | debug
deriving DecidableEq, Repr

inductive Source
  | page
  | extension
  | unknown
deriving DecidableEq, Repr

inductive BufferedEvent
  | console (ts : String) (level : Level) (label : Option String) (text : String)
      (source : Source)
  | exception (ts : String) (label : Option String) (text : String) (source : Source)
  | request (ts : String) (label : Option String) (method : String) (url : String)
      (source : Source)
  | response (ts : String) (label : Option String) (status : Nat) (url : String)
      (source : Source)
  | networkError (ts : String) (label : Option String) (error : String)
      (resourceType : String) (url : String) (source : Source)
  | screenshot (ts : String) (label : Option String) (path : String) (source : Source)
deriving DecidableEq, Repr

namespace BufferedEvent

def ts : BufferedEvent → String
  | console t .. => t
  | exception t .. => t
  | request t .. => t
  | response t .. => t
  | networkError t .. => t
  | screenshot t .. => t

def isConsole : BufferedEvent → Bool
  | console .. => true
  | _ => false

def isException : BufferedEvent → Bool
  | exception .. => true
  | _ => false

def isRequest : BufferedEvent → Bool
  | request .. => true
  | _ => false

def isResponse : BufferedEvent → Bool
  | response .. => true
  | _ => false

def isNetworkError : BufferedEvent → Bool
  | networkError .. => true
  | _ => false

def levelOf : BufferedEvent → Option Level
  | console _ l .. => some l
  | _ => none

def statusOf : BufferedEvent → Option Nat
  | response _ _ s .. => some s
  | _ => none

/-- `"text" in e`: only console and exception events carry a `text` field. -/
def hasText : BufferedEvent → Bool
  | console .. => true
  | exception .. => true
  | _ => false

/-- `"text" in e ? e.text : ""` — the grouping key of `addFrequency`. -/
def keyOf : BufferedEvent → String
  | console _ _ _ text _ => text
  | exception _ _ text _ => text
  | _ => ""

end BufferedEvent

/-! ## Query engine (src/daemon.ts) -/

/-- The error-classification predicate used by GET /errors, GET /errors/summary
and GET /inspect:

```ts
(e) => e.type === "exception" || e.type === "network_error" ||
  (e.type === "console" && e.level === "error") ||
  (e.type === "response" && e.status >= 400)
``` -/
def errorsFilter : BufferedEvent → Bool
  | .exception .. => true
  | .networkError .. => true
  | .console _ level _ _ _ => level == .error
  | .response _ _ status _ _ => decide (400 ≤ status)
  | _ => false

/-- The `recentErrors` predicate of `addFrequency`:
`e.ts >= thirtySecsAgo && (e.type === "console" && e.level === "error" || e.type === "exception")`
(in JS, `&&` binds tighter than `||`). -/
def isRecentError (thirtySecsAgo : String) (e : BufferedEvent) : Bool :=
  jsLe thirtySecsAgo e.ts &&
    ((e.isConsole && e.levelOf == some .error) || e.isException)

/-- `counts.set(key, (counts.get(key) ?? 0) + 1)` on a JS `Map` modelled as a
total function with default `0`. -/
def bumpCount (m : String → Nat) (k : String) : String → Nat :=
  fun q => if q = k then m k + 1 else m q

/-- `addFrequency(events)` (src/daemon.ts).  The code computes
`thirtySecsAgo = new Date(Date.now() - 30_000).toISOString()`; the clock
reading is passed in as the `thirtySecsAgo` parameter.  An output pair
`(e, some f)` models the spread `{ ...e, frequency: f }`; `(e, none)` models
returning `e` unchanged. -/
def addFrequency (thirtySecsAgo : String) (events : List BufferedEvent) :
    List (BufferedEvent × Option String) :=
  let recentErrors := events.filter (isRecentError thirtySecsAgo)
  let counts : String → Nat :=
    recentErrors.foldl (fun m e => bumpCount m e.keyOf) fun _ => 0
  events.map fun e =>
    let count := counts e.keyOf
    if 3 ≤ count then (e, some ("repeated " ++ toString count ++ "x in 30s"))
    else (e, none)

/-- One token of the GET /network status filter:

```ts
if (r.endsWith("xx")) {
  const prefix = parseInt(r[0], 10);
  return Math.floor(e.status / 100) === prefix;
}
return e.status === parseInt(r, 10);
``` -/
def statusTokenMatches (r : String) (status : Nat) : Bool :=
  if jsEndsWith r "xx" then
    match jsParseInt ⟨r.data.take 1⟩ with
    | some p => ((status / 100 : Nat) : Int) == p
    | none => false
  else
    match jsParseInt r with
    | some v => ((status : Nat) : Int) == v
    | none => false

/-- The GET /network filter when a `status` query parameter is present:
the base network-type filter, then `network_error` always passes, and a
response passes iff some comma-separated (trimmed) token matches. -/
def networkStatusFilter (statusParam : String) (e : BufferedEvent) : Bool :=
  let ranges := (jsSplitComma statusParam).map jsTrim
  if !(e.isRequest || e.isResponse || e.isNetworkError) then false
  else
    match e with
    | .networkError .. => true
    | .response _ _ status _ _ => ranges.any fun r => statusTokenMatches r status
    | _ => false

/-- Helper for `specLeadingDigit`: strip trailing decimal digits, with a fuel
argument for structural recursion (`fuel ≥ n` always suffices). -/
def specLeadingDigitAux : Nat → Nat → Nat
  | 0, n => n
  | fuel + 1, n => if n < 10 then n else specLeadingDigitAux fuel (n / 10)

/-- Spec-side definition (claim wording only, not from the source): "the
leading decimal digit" of a number, i.e. its most significant decimal digit. -/
def specLeadingDigit (n : Nat) : Nat :=
  specLeadingDigitAux n n

/-! ## Reference table (src/daemon.ts, `state.refMap` + GET /snapshot + POST /click) -/

/-- One entry of `snapshot.interactiveElements` (src/snapshot.ts, interface
SnapshotRef).  The `type` and `name` attributes are `typeAttr`/`nameAttr` to
keep Lean identifiers plain. -/
structure SnapshotRef where
  ref : Nat
  tag : String
  role : Option String := none
  text : String := ""
  selector : String
  typeAttr : Option String := none
  nameAttr : Option String := none
  href : Option String := none
  disabled : Option Bool := none
deriving DecidableEq, Repr

/-- `state.refMap : Map<number, SnapshotRef>` modelled by its lookup function. -/
def RefMap : Type := Nat → Option SnapshotRef

/-- `new Map()` / `refMap.clear()` result. -/
def RefMap.empty : RefMap := fun _ => none

/-- `refMap.set(k, v)`. -/
def RefMap.set (m : RefMap) (k : Nat) (v : SnapshotRef) : RefMap :=
  fun q => if q = k then some v else m q

/-- The GET /snapshot (and GET /inspect) table refresh:

```ts
state.refMap.clear();
for (const el of snapshot.interactiveElements) state.refMap.set(el.ref, el);
``` -/
def snapshotUpdate (_old : RefMap) (els : List SnapshotRef) : RefMap :=
  els.foldl (fun m el => m.set el.ref el) RefMap.empty

/-- The POST /click and POST /fill ref lookup:

```ts
const refEntry = state.refMap.get(Number(body.ref));
if (!refEntry) { json(res, { error: `Ref @...` }, 400); return; }
selector = refEntry.selector;
```

`.error` models the early 400 return (the handler performs no page action);
`.ok` carries the selector the action will use. -/
def resolveRef (m : RefMap) (r : Nat) : Except String String :=
  match m r with
  | some entry => .ok entry.selector
  | none => .error ("Ref @" ++ toString r ++ " not found. Run snapshot first.")

/-! ## Snapshot builder: capacity policy and ref assignment
(src/snapshot.ts, generated in-page code) -/

/-- Candidate split and capacity policy:

```ts
const mainLimit = shadowCandidates.length > 0 ? 50 : 75;
const shadowLimit = 25;
const finalCandidates = [
  ...mainCandidates.slice(0, mainLimit),
  ...shadowCandidates.slice(0, shadowLimit),
];
``` -/
def selectCandidates {C : Type} (mainCandidates shadowCandidates : List C) : List C :=
  let mainLimit := if shadowCandidates.length > 0 then 50 else 75
  let shadowLimit := 25
  mainCandidates.take mainLimit ++ shadowCandidates.take shadowLimit

/-- The emission loop: `let ref = 1; for (...) { elements.push({ ref: ref++, ... });
if (ref > 75) break; }` — the check runs after the push, so the element
numbered 75 is still emitted. -/
def assignRefsFrom {C : Type} (ref : Nat) : List C → List (Nat × C)
  | [] => []
  | c :: rest =>
    if ref + 1 > 75 then [(ref, c)] else (ref, c) :: assignRefsFrom (ref + 1) rest

def assignRefs {C : Type} (cands : List C) : List (Nat × C) :=
  assignRefsFrom 1 cands

/-! ## Snapshot builder: selector synthesis
(src/snapshot.ts, generated in-page code lines 140–199) -/

/-- JS truthiness of a `getAttribute` result: `null` and `""` are falsy. -/
def jsTruthy : Option String → Bool
  | some s => !s.isEmpty
  | none => false

/-- The browser builtin `CSS.escape` (CSSOM serialize-an-identifier): NUL maps
to U+FFFD; control characters, a leading digit and a digit after a leading
`-` become hex escapes; a lone `-` is backslash-escaped; `[A-Za-z0-9_-]` and
all code points ≥ U+0080 pass through; everything else is backslash-escaped. -/
def cssEscape (s : String) : String :=
  let chars := s.data
  let hexEscape : Char → List Char := fun c => '\\' :: Nat.toDigits 16 c.toNat ++ [' ']
  let step : Nat × Char → List Char := fun p =>
    let i := p.1
    let c := p.2
    if c = '\x00' then ['�']
    else if c.toNat ≤ 0x1F || c.toNat == 0x7F then hexEscape c
    else if i == 0 && c.isDigit then hexEscape c
    else if i == 1 && c.isDigit && chars.head? == some '-' then hexEscape c
    else if i == 0 && c == '-' && chars.length == 1 then ['\\', c]
    else if 0x80 ≤ c.toNat || c == '-' || c == '_' || c.isAlphanum then [c]
    else ['\\', c]
  ⟨(chars.enum.map step).flatten⟩

/-- `ariaLabel.replace(/"/g, '\\"')` (as it stands in the generated page code). -/
def escapeQuotes (s : String) : String :=
  ⟨s.data.foldr (fun c acc => if c = '"' then '\\' :: '"' :: acc else c :: acc) []⟩

/-- An element as the selector synthesis sees it: lower-cased tag name and the
four attributes it reads (`getAttribute` returning `null` is `none`). -/
structure Elem where
  tag : String
  id : Option String := none
  testId : Option String := none
  ariaLabel : Option String := none
  nameAttr : Option String := none
deriving DecidableEq, Repr

/-- One step of the upward walk in `buildPath`: the current element and — when
it has a `parentElement` — the parent's `children` with the element's position
in it (DOM identity is positional).  A chain lists the steps from the element
itself upward, ending where the walk stops (`document.body`,
`document.documentElement` or the shadow root, which are excluded). -/
structure ElemCtx where
  elem : Elem
  parent : Option (List Elem × Nat)
deriving DecidableEq, Repr

/-- `siblings.indexOf(cur) + 1` where
`siblings = Array.from(parent.children).filter(c => c.tagName === cur.tagName)`:
one plus the number of same-tag children before the element's position. -/
def nthOfTypeIndex (children : List Elem) (pos : Nat) (tag : String) : Nat :=
  ((children.take pos).filter fun c => c.tag == tag).length + 1

/-- The `while` loop of `buildPath`, producing the path parts in document
order together with the `foundId` flag:

```ts
while (cur && cur !== document.body && cur !== document.documentElement && cur !== root) {
  const curTag = cur.tagName.toLowerCase();
  const curId = cur.getAttribute('id');
  if (curId) { parts.unshift('#' + CSS.escape(curId)); foundId = true; break; }
  const parent = cur.parentElement;
  if (!parent) { parts.unshift(curTag); break; }
  const siblings = Array.from(parent.children).filter(c => c.tagName === cur.tagName);
  if (siblings.length === 1) parts.unshift(curTag);
  else parts.unshift(curTag + ':nth-of-type(' + (siblings.indexOf(cur) + 1) + ')');
  cur = parent;
}
``` -/
def buildPathParts : List ElemCtx → List String × Bool
  | [] => ([], false)
  | c :: rest =>
    let curTag := c.elem.tag
    if jsTruthy c.elem.id then (["#" ++ cssEscape (c.elem.id.getD "")], true)
    else
      match c.parent with
      | none => ([curTag], false)
      | some (children, pos) =>
        let siblings := children.filter fun s => s.tag == c.elem.tag
        let part :=
          if siblings.length == 1 then curTag
          else curTag ++ ":nth-of-type(" ++ toString (nthOfTypeIndex children pos curTag) ++ ")"
        let r := buildPathParts rest
        (r.1 ++ [part], r.2)

/-- `buildPath(node, root)`: join the parts with `' > '`; outside a shadow
root, when no ancestor id anchored the path, prefix `'body > '`. -/
def buildPath (chain : List ElemCtx) (isShadow : Bool) : String :=
  let r := buildPathParts chain
  let path := String.intercalate " > " r.1
  if !r.2 && !isShadow then "body > " ++ path else path

/-- The uniqueness re-query that follows `buildPath` in the generated code:

```ts
try {
  if (queryRoot.querySelectorAll(innerSelector).length !== 1) {
    const allEls = Array.from(queryRoot.querySelectorAll(tag));
    const globalIdx = allEls.indexOf(el);
    if (globalIdx >= 0) innerSelector = tag + ':nth-of-type(' + (globalIdx + 1) + ')';
  }
} catch(e) {
  const allEls = Array.from(queryRoot.querySelectorAll(tag));
  const globalIdx = allEls.indexOf(el);
  if (globalIdx >= 0) innerSelector = tag + ':nth-of-type(' + (globalIdx + 1) + ')';
}
```

The two DOM reads are oracles of the live page: `matchCount sel` is
`queryRoot.querySelectorAll(sel).length`, `none` when the call throws (the
`catch` branch); `tagIndex` is `allEls.indexOf(el)` for the element's tag in
the query root, `none` for `-1`. -/
def validatePath (matchCount : String → Option Nat) (tagIndex : Option Nat)
    (tag path : String) : String :=
  match matchCount path with
  | some n =>
    if n ≠ 1 then
      match tagIndex with
      | some gi => tag ++ ":nth-of-type(" ++ toString (gi + 1) ++ ")"
      | none => path
    else path
  | none =>
    match tagIndex with
    | some gi => tag ++ ":nth-of-type(" ++ toString (gi + 1) ++ ")"
    | none => path

/-- Selector synthesis for one element, in the source's priority order; the
ancestor-path branch is validated by the uniqueness re-query (`validatePath`),
whose two DOM reads are passed in as oracles.

```ts
if (id) innerSelector = '#' + CSS.escape(id);
else if (testId) innerSelector = '[data-testid="' + testId + '"]';
else if (ariaLabel) innerSelector = '[aria-label="' + ariaLabel.replace(/"/g, '\\"') + '"]';
else if (name && tag === 'input') innerSelector = tag + '[name="' + name + '"]';
else { innerSelector = buildPath(el, queryRoot); try { ...re-query... } catch { ...fallback... } }
``` -/
def innerSelector (e : Elem) (chain : List ElemCtx) (isShadow : Bool)
    (matchCount : String → Option Nat) (tagIndex : Option Nat) : String :=
  if jsTruthy e.id then "#" ++ cssEscape (e.id.getD "")
  else if jsTruthy e.testId then "[data-testid=\"" ++ e.testId.getD "" ++ "\"]"
  else if jsTruthy e.ariaLabel then
    "[aria-label=\"" ++ escapeQuotes (e.ariaLabel.getD "") ++ "\"]"
  else if jsTruthy e.nameAttr && e.tag == "input" then
    e.tag ++ "[name=\"" ++ e.nameAttr.getD "" ++ "\"]"
  else validatePath matchCount tagIndex e.tag (buildPath chain isShadow)

/-! ## Reconnection state machine (src/daemon.ts, `connectCDP` / `scheduleReconnect`)

```ts
const scheduleReconnect = (state) => {
  if (state.reconnecting) return;
  state.reconnecting = true;
  let delay = 1000;
  const maxDelay = 10_000;
  const attempt = async () => {
    try { await connectCDP(state); }
    catch { delay = Math.min(delay * 2, maxDelay); setTimeout(attempt, delay); }
  };
  setTimeout(attempt, delay);
};
```

`pending` counts the reconnect `setTimeout` timers currently in flight —
"reconnection loops" in the claim's words.  `connectCDP` sets
`connected = true; reconnecting = false` on success; an `attempt` whose
`connectCDP` throws doubles the delay (capped at 10 000 ms) and re-arms one
timer. -/

structure ConnState where
  connected : Bool
  reconnecting : Bool
  pending : Nat
  delay : Nat
deriving DecidableEq, Repr

/-- `scheduleReconnect`: a no-op when `reconnecting` is already set, else it
marks `reconnecting`, resets the local backoff to 1000 ms and arms one timer. -/
def scheduleReconnect (s : ConnState) : ConnState :=
  if s.reconnecting then s
  else { s with reconnecting := true, delay := 1000, pending := s.pending + 1 }

/-- The `client.on("disconnect")` handler: `state.connected = false;` then
`scheduleReconnect(state)`. -/
def onDisconnect (s : ConnState) : ConnState :=
  scheduleReconnect { s with connected := false }

/-- A pending `attempt` fires and its `connectCDP` throws:
`delay = Math.min(delay * 2, maxDelay); setTimeout(attempt, delay);`
(one timer consumed, one re-armed — `pending` unchanged). -/
def attemptFail (s : ConnState) : ConnState :=
  { s with delay := min (s.delay * 2) 10000 }

/-- A pending `attempt` fires and its `connectCDP` succeeds:
`state.connected = true; state.reconnecting = false;` and no timer is
re-armed. -/
def attemptSucceed (s : ConnState) : ConnState :=
  { s with connected := true, reconnecting := false, pending := s.pending - 1 }

/-- The events that touch the reconnection state. -/
inductive ConnStep : ConnState → ConnState → Prop
  | disconnect (s : ConnState) : ConnStep s (onDisconnect s)
  | fail (s : ConnState) : 0 < s.pending → ConnStep s (attemptFail s)
  | succeed (s : ConnState) : 0 < s.pending → ConnStep s (attemptSucceed s)

/-- Daemon state right after a successful initial `connectCDP`. -/
def connInit : ConnState := ⟨true, false, 0, 1000⟩

def ConnReachable (s : ConnState) : Prop :=
  Relation.ReflTransGen ConnStep connInit s

end AgentCrx

-- ===== Theorems =====

namespace AgentCrx

namespace RingBuffer

theorem mod_lt_two_mul (a c : Nat) (h : a < 2 * c) :
    a % c = if a < c then a else a - c := by
  split
  · exact Nat.mod_eq_of_lt ‹_›
  · next h2 => rw [Nat.mod_eq_sub_mod (Nat.le_of_not_lt h2), Nat.mod_eq_of_lt (by omega)]

theorem start_eq (b : RingBuffer T) (hh : b.head < b.capacity)
    (hn : b.count ≤ b.capacity) :
    b.start =
      if b.count ≤ b.head then b.head - b.count
      else b.head + b.capacity - b.count := by
  unfold start
  rw [mod_lt_two_mul _ _ (by omega)]
  split <;> split <;> omega

theorem start_add_count_mod (b : RingBuffer T) (hh : b.head < b.capacity)
    (hn : b.count ≤ b.capacity) :
    (b.start + b.count) % b.capacity = b.head := by
  rw [start_eq b hh hn]
  split
  · next hcase =>
    have e : b.head - b.count + b.count = b.head := by omega
    rw [e, Nat.mod_eq_of_lt hh]
  · next hcase =>
    have e : b.head + b.capacity - b.count + b.count = b.head + b.capacity := by omega
    rw [e, mod_lt_two_mul _ _ (by omega)]
    split <;> omega

theorem start_add_mod_ne_head (b : RingBuffer T) (hh : b.head < b.capacity)
    (hfull : b.count < b.capacity) :
    ∀ i, i < b.count → (b.start + i) % b.capacity ≠ b.head := by
  intro i hi
  rw [start_eq b hh (by omega)]
  split
  · next hcase =>
    rw [Nat.mod_eq_of_lt (by omega)]
    omega
  · next hcase =>
    rw [mod_lt_two_mul _ _ (by omega)]
    split <;> omega

theorem rep_push {b : RingBuffer T} {l : List T} (hr : b.Rep l) (x : T) :
    (b.push x).Rep ((l ++ [x]).drop (b.count + 1 - b.capacity)) := by
  obtain ⟨hlen, hh, hn, hl, hs⟩ := hr
  have hc : 0 < b.capacity := by omega
  by_cases hfull : b.count < b.capacity
  · -- buffer not yet full: the new item is appended, nothing is dropped
    have hd0 : b.count + 1 - b.capacity = 0 := by omega
    have hstart' : (b.push x).start = b.start := by
      have e1 : (b.push x).start =
          ((b.head + 1) % b.capacity + b.capacity - (b.count + 1)) % b.capacity := by
        simp only [start, push]
        rw [if_pos hfull]
      rw [e1, mod_lt_two_mul (b.head + 1) b.capacity (by omega), start_eq b hh hn]
      by_cases h2 : b.head + 1 < b.capacity
      · rw [if_pos h2, mod_lt_two_mul _ _ (by omega)]
        split <;> split <;> omega
      · rw [if_neg h2, mod_lt_two_mul _ _ (by omega)]
        split <;> split <;> omega
    have hcount' : (b.push x).count = b.count + 1 := by
      simp only [push]
      rw [if_pos hfull]
    refine ⟨?_, ?_, ?_, ?_, ?_⟩
    · simp only [push, List.length_set]
      exact hlen
    · simp only [push]
      exact Nat.mod_lt _ hc
    · simp only [push]
      rw [if_pos hfull]
      omega
    · rw [hd0, List.drop_zero, List.length_append, hcount']
      simp [hl]
    · intro i hi
      rw [hcount'] at hi
      rw [hd0, List.drop_zero]
      show ((b.items.set b.head (some x))[((b.push x).start + i) % (b.push x).capacity]?).join
          = (l ++ [x])[i]?
      rw [show (b.push x).capacity = b.capacity from rfl, hstart']
      by_cases hin : i < b.count
      · rw [List.getElem?_set_ne (Ne.symm (start_add_mod_ne_head b hh hfull i hin)),
          List.getElem?_append_left (by omega)]
        exact hs i hin
      · have hieq : i = b.count := by omega
        subst hieq
        rw [start_add_count_mod b hh hn, List.getElem?_set_self', List.getElem?_append_right (by omega)]
        have : b.items[b.head]?.isSome := by
          rw [List.getElem?_eq_getElem (by omega)]
          rfl
        obtain ⟨w, hw⟩ := Option.isSome_iff_exists.mp this
        rw [hw]
        simp [hl]
  · -- buffer full: the oldest item is overwritten
    have hceq : b.count = b.capacity := by omega
    have hd1 : b.count + 1 - b.capacity = 1 := by omega
    have hsf : b.start = b.head := by
      rw [start_eq b hh hn]
      split <;> omega
    have hstart' : (b.push x).start = (b.head + 1) % b.capacity := by
      have e1 : (b.push x).start =
          ((b.head + 1) % b.capacity + b.capacity - b.count) % b.capacity := by
        simp only [start, push]
        rw [if_neg hfull]
      rw [e1, hceq]
      have e2 : (b.head + 1) % b.capacity + b.capacity - b.capacity
          = (b.head + 1) % b.capacity := by omega
      rw [e2, Nat.mod_eq_of_lt (Nat.mod_lt _ hc)]
    have hcount' : (b.push x).count = b.count := by
      simp only [push]
      rw [if_neg hfull]
    refine ⟨?_, ?_, ?_, ?_, ?_⟩
    · simp only [push, List.length_set]
      exact hlen
    · simp only [push]
      exact Nat.mod_lt _ hc
    · simp only [push]
      rw [if_neg hfull]
      omega
    · rw [hd1, List.length_drop, List.length_append, hcount']
      simp [hl]
    · intro i hi
      rw [hcount'] at hi
      rw [hd1]
      show ((b.items.set b.head (some x))[((b.push x).start + i) % (b.push x).capacity]?).join
          = ((l ++ [x]).drop 1)[i]?
      rw [show (b.push x).capacity = b.capacity from rfl, hstart',
        Nat.mod_add_mod, List.getElem?_drop]
      by_cases hlast : i + 1 < b.count
      · have hne : (b.head + 1 + i) % b.capacity ≠ b.head := by
          rw [mod_lt_two_mul _ _ (by omega)]
          split <;> omega
        rw [List.getElem?_set_ne (Ne.symm hne), List.getElem?_append_left (by omega)]
        have hthis := hs (i + 1) hlast
        simp only [slot] at hthis
        rw [hsf] at hthis
        rw [show b.head + 1 + i = b.head + (i + 1) by omega,
          show (1 : Nat) + i = i + 1 by omega]
        exact hthis
      · have hieq : i + 1 = b.count := by omega
        have e3 : (b.head + 1 + i) % b.capacity = b.head := by
          rw [show b.head + 1 + i = b.head + b.capacity by omega,
            mod_lt_two_mul _ _ (by omega)]
          split <;> omega
        rw [e3, List.getElem?_set_self', List.getElem?_append_right (by omega)]
        have hsome : b.items[b.head]?.isSome := by
          rw [List.getElem?_eq_getElem (by omega)]
          rfl
        obtain ⟨w, hw⟩ := Option.isSome_iff_exists.mp hsome
        rw [hw, show 1 + i - l.length = 0 by omega]
        rfl

theorem filterMap_range_eq_filter {T : Type} (f : T → Bool) :
    ∀ (l : List T) (g : Nat → Option T), (∀ i, i < l.length → g i = l[i]?) →
      ((List.range l.length).filterMap fun i =>
        match g i with
        | some item => if f item then some item else none
        | none => none) = l.filter f := by
  intro l
  induction l with
  | nil => intro g _; rfl
  | cons a rest ih =>
    intro g hg
    have h0 : g 0 = some a := by
      have := hg 0 (by simp)
      simpa using this
    have hrest := ih (fun i => g (i + 1)) (fun i hi => by
      have := hg (i + 1) (by simpa using Nat.succ_lt_succ hi)
      simpa using this)
    rw [List.length_cons, List.range_succ_eq_map, List.filterMap_cons, h0,
      List.filterMap_map]
    have hcomp : ((fun i =>
        match g i with
        | some item => if f item then some item else none
        | none => none) ∘ Nat.succ) = fun i =>
          match g (i + 1) with
          | some item => if f item then some item else none
          | none => none := rfl
    rw [hcomp, hrest, List.filter_cons]
    by_cases hfa : f a
    · simp [hfa]
    · simp [hfa]

theorem collect_eq {b : RingBuffer T} {l : List T} (hr : b.Rep l) (f : T → Bool) :
    b.collect f = l.filter f := by
  obtain ⟨hlen, hh, hn, hl, hs⟩ := hr
  unfold collect
  rw [← hl]
  exact filterMap_range_eq_filter f l b.slot (fun i hi => hs i (hl ▸ hi))

/-- `query()` with no arguments returns exactly the held items, oldest first. -/
theorem query_none_of_rep {b : RingBuffer T} {l : List T} (hr : b.Rep l) :
    b.query none none = l := by
  unfold query
  simp only
  rw [collect_eq hr, List.filter_true]

/-- `query(filter)` with no limit returns exactly the matching held items. -/
theorem query_filter_of_rep {b : RingBuffer T} {l : List T} (hr : b.Rep l)
    (f : T → Bool) :
    b.query (some f) none = l.filter f := by
  unfold query
  simp only
  exact collect_eq hr f

theorem rep_make (T : Type) (c : Nat) (hc : 1 ≤ c) : (make T c).Rep [] := by
  refine ⟨by simp [make], by simpa [make] using hc, by simp [make], by simp [make], ?_⟩
  intro i hi
  simp [make] at hi

theorem capacity_pushAll (b : RingBuffer T) (xs : List T) :
    (b.pushAll xs).capacity = b.capacity := by
  induction xs generalizing b with
  | nil => rfl
  | cons x rest ih => exact (ih (b.push x)).trans rfl

theorem rep_pushAll {b : RingBuffer T} {l : List T} (hr : b.Rep l) (xs : List T) :
    (b.pushAll xs).Rep ((l ++ xs).drop (l.length + xs.length - b.capacity)) := by
  induction xs generalizing b l with
  | nil =>
    have hln : l.length ≤ b.capacity := by
      obtain ⟨_, _, hn, hl, _⟩ := hr
      omega
    rw [show l.length + [].length - b.capacity = 0 by simp; omega]
    simpa using hr
  | cons x rest ih =>
    have hln : l.length = b.count := hr.2.2.2.1
    have hlc : b.count ≤ b.capacity := hr.2.2.1
    have hstep := rep_push hr x
    have hih := ih hstep
    rw [show (b.push x).capacity = b.capacity from rfl] at hih
    have hsplit : ((l ++ [x]) ++ rest).drop (b.count + 1 - b.capacity)
        = ((l ++ [x]).drop (b.count + 1 - b.capacity)) ++ rest := by
      rw [List.drop_append_eq_append_drop,
        show b.count + 1 - b.capacity - (l ++ [x]).length = 0 by
          simp only [List.length_append, List.length_singleton]; omega,
        List.drop_zero]
    have harr : (((l ++ [x]).drop (b.count + 1 - b.capacity)) ++ rest).drop
        (((l ++ [x]).drop (b.count + 1 - b.capacity)).length + rest.length - b.capacity)
        = ((l ++ x :: rest).drop (l.length + (x :: rest).length - b.capacity)) := by
      rw [← hsplit, List.drop_drop,
        show (l ++ [x]) ++ rest = l ++ x :: rest by simp]
      congr 1
      simp only [List.length_drop, List.length_append, List.length_singleton,
        List.length_cons, List.length_nil]
      omega
    rw [show RingBuffer.pushAll b (x :: rest) = RingBuffer.pushAll (b.push x) rest from rfl]
    rw [← harr]
    exact hih

theorem rep_pushAll_make (α : Type) (c : Nat) (hc : 1 ≤ c) (xs : List α) :
    ((make α c).pushAll xs).Rep (xs.drop (xs.length - c)) := by
  have h := rep_pushAll (rep_make α c hc) xs
  simpa using h

/-- C1: for every capacity `c ≥ 1` and every sequence of pushes, `query()` with
no arguments returns exactly the most recently pushed `min(n, c)` items in
insertion order (oldest first); a push on a full buffer silently overwrites
the oldest item (the result is always the length-`min(n,c)` suffix of the push
sequence), and the buffer retains exactly `c` slots throughout. -/
theorem ringBuffer_query_holds_recent_suffix (α : Type) (c : Nat) (hc : 1 ≤ c)
    (xs : List α) :
    ((RingBuffer.make α c).pushAll xs).query none none = xs.drop (xs.length - c) ∧
    (((RingBuffer.make α c).pushAll xs).query none none).length = min xs.length c ∧
    ((RingBuffer.make α c).pushAll xs).items.length = c ∧
    ((RingBuffer.make α c).pushAll xs).size = min xs.length c := by
  have hrep := rep_pushAll_make α c hc xs
  have hq := query_none_of_rep hrep
  refine ⟨hq, ?_, ?_, ?_⟩
  · rw [hq, List.length_drop]
    omega
  · have := hrep.1
    rwa [capacity_pushAll] at this
  · have h4 := hrep.2.2.2.1
    have : xs.length - (xs.length - c) = min xs.length c := by omega
    rw [List.length_drop, this] at h4
    exact h4.symm

theorem ringBuffer_query_holds_recent_suffix_witness :
    1 ≤ 2 ∧
      (((RingBuffer.make Nat 2).pushAll [10, 20, 30]).query none none
          = [10, 20, 30].drop ([10, 20, 30].length - 2) ∧
        (((RingBuffer.make Nat 2).pushAll [10, 20, 30]).query none none).length
          = min [10, 20, 30].length 2 ∧
        ((RingBuffer.make Nat 2).pushAll [10, 20, 30]).items.length = 2 ∧
        ((RingBuffer.make Nat 2).pushAll [10, 20, 30]).size = min [10, 20, 30].length 2) :=
  ⟨by decide, ringBuffer_query_holds_recent_suffix Nat 2 (by decide) [10, 20, 30]⟩

/-- C2: for every held contents `l`, predicate `f` and strictly positive limit
`k`, `query(f, k)` returns the length-`k` suffix of the filtered held items —
the limit is applied after filtering, keeping the most recent matches in
oldest-to-newest order. -/
theorem ringBuffer_query_limit_takes_last_matches {T : Type} (b : RingBuffer T)
    (l : List T) (hr : b.Rep l) (f : T → Bool) (k : Int) (hk : 0 < k) :
    b.query (some f) (some k)
      = (l.filter f).drop ((l.filter f).length - k.toNat) := by
  unfold query
  simp only
  rw [collect_eq hr f, if_pos hk]

theorem ringBuffer_query_limit_takes_last_matches_witness :
    ((RingBuffer.make Nat 3).pushAll [1, 2, 3, 4, 5, 6]).Rep [4, 5, 6] ∧
      (0 : Int) < 2 ∧
      ((RingBuffer.make Nat 3).pushAll [1, 2, 3, 4, 5, 6]).query
          (some fun x => decide (x % 2 = 0)) (some 2)
        = ([4, 5, 6].filter fun x => decide (x % 2 = 0)).drop
            (([4, 5, 6].filter fun x => decide (x % 2 = 0)).length - (2 : Int).toNat) :=
  ⟨by decide, by decide,
    ringBuffer_query_limit_takes_last_matches _ [4, 5, 6] (by decide)
      (fun x => decide (x % 2 = 0)) 2 (by decide)⟩

/-- C10: a non-positive `limit` argument (for example `0`) is falsy or fails
the `limit > 0` guard, so `query(filter, limit)` behaves exactly as if no
limit had been given and returns all matching items — only a strictly
positive limit truncates. -/
theorem ringBuffer_query_nonpositive_limit_ignored {T : Type} (b : RingBuffer T)
    (f : T → Bool) (k : Int) (hk : k ≤ 0) (l : List T) (hr : b.Rep l) :
    b.query (some f) (some k) = b.query (some f) none ∧
      b.query (some f) (some k) = l.filter f := by
  have h1 : b.query (some f) (some k) = b.query (some f) none := by
    unfold query
    simp only
    rw [if_neg (by omega)]
  exact ⟨h1, h1.trans (query_filter_of_rep hr f)⟩

theorem ringBuffer_query_nonpositive_limit_ignored_witness :
    (0 : Int) ≤ 0 ∧
      ((RingBuffer.make Nat 3).pushAll [1, 2, 3, 4]).Rep [2, 3, 4] ∧
      (((RingBuffer.make Nat 3).pushAll [1, 2, 3, 4]).query
            (some fun x => decide (x % 2 = 0)) (some 0)
          = ((RingBuffer.make Nat 3).pushAll [1, 2, 3, 4]).query
            (some fun x => decide (x % 2 = 0)) none ∧
        ((RingBuffer.make Nat 3).pushAll [1, 2, 3, 4]).query
            (some fun x => decide (x % 2 = 0)) (some 0)
          = [2, 3, 4].filter fun x => decide (x % 2 = 0)) :=
  ⟨by decide, by decide,
    ringBuffer_query_nonpositive_limit_ignored _ (fun x => decide (x % 2 = 0)) 0
      (by decide) [2, 3, 4] (by decide)⟩

end RingBuffer

/-- C4: the error-classification predicate used by GET /errors,
GET /errors/summary and GET /inspect holds iff the event is an `exception`, a
`network_error`, a `console` event with level `error`, or a `response` with
status ≥ 400; in particular a 404 response is classified as an error and a
200 response is not. -/
theorem errorsFilter_classification :
    (∀ e : BufferedEvent, errorsFilter e = true ↔
      (e.isException = true ∨ e.isNetworkError = true ∨
        (e.isConsole = true ∧ e.levelOf = some Level.error) ∨
        (e.isResponse = true ∧ ∃ s, e.statusOf = some s ∧ 400 ≤ s))) ∧
    errorsFilter (.response "2024-01-01T00:00:00.000Z" none 404 "https://x" .unknown)
      = true ∧
    errorsFilter (.response "2024-01-01T00:00:00.000Z" none 200 "https://x" .unknown)
      = false := by
  refine ⟨?_, by decide, by decide⟩
  intro e
  cases e <;>
    simp [errorsFilter, BufferedEvent.isException, BufferedEvent.isNetworkError,
      BufferedEvent.isConsole, BufferedEvent.isResponse, BufferedEvent.levelOf,
      BufferedEvent.statusOf]

/-- Count delivered by the fold-built JS `Map` of `addFrequency`: the number
of occurrences of the key. -/
theorem foldl_bumpCount (l : List BufferedEvent) :
    ∀ (base : String → Nat) (k : String),
      (l.foldl (fun m e => bumpCount m e.keyOf) base) k
        = base k + l.countP (fun e => e.keyOf == k) := by
  induction l with
  | nil =>
    intro base k
    simp
  | cons e rest ih =>
    intro base k
    rw [List.foldl_cons, ih, List.countP_cons]
    by_cases h : k = e.keyOf
    · subst h
      simp [bumpCount]
      omega
    · have hb : (e.keyOf == k) = false := by
        simp only [beq_eq_false_iff_ne]
        exact fun hh => h hh.symm
      simp [bumpCount, h, hb]

/-- C3 (amended): `addFrequency` never suppresses or reorders events — the
output lists the input events in order — and it annotates exactly those
events whose grouping key (the `text` field, or `""` for events without one)
occurs at least 3 times among the console-error and exception events of the
most recent 30 seconds, tagging them `"repeated <count>x in 30s"`.  The tag is
keyed on text alone, so it also lands on events outside the 30-second window,
on non-error console events and on text-less events whose key matches. -/
theorem addFrequency_annotates_by_recent_text_count (thirtySecsAgo : String)
    (events : List BufferedEvent) :
    addFrequency thirtySecsAgo events
      = (events.map fun e =>
          if 3 ≤ (events.filter (isRecentError thirtySecsAgo)).countP
              (fun r => r.keyOf == e.keyOf) then
            (e, some ("repeated "
              ++ toString ((events.filter (isRecentError thirtySecsAgo)).countP
                  fun r => r.keyOf == e.keyOf)
              ++ "x in 30s"))
          else (e, none)) ∧
    (addFrequency thirtySecsAgo events).map Prod.fst = events := by
  have h1 : addFrequency thirtySecsAgo events
      = (events.map fun e =>
          if 3 ≤ (events.filter (isRecentError thirtySecsAgo)).countP
              (fun r => r.keyOf == e.keyOf) then
            (e, some ("repeated "
              ++ toString ((events.filter (isRecentError thirtySecsAgo)).countP
                  fun r => r.keyOf == e.keyOf)
              ++ "x in 30s"))
          else (e, none)) := by
    unfold addFrequency
    simp only
    apply List.map_congr_left
    intro e _
    rw [foldl_bumpCount]
    simp
  refine ⟨h1, ?_⟩
  rw [h1, List.map_map]
  conv_rhs => rw [← List.map_id events]
  apply List.map_congr_left
  intro e _
  by_cases h : 3 ≤ (events.filter (isRecentError thirtySecsAgo)).countP
      fun r => r.keyOf == e.keyOf
  · simp [h]
  · simp [h]

/-- C3 (counterexample): the claim says an event older than 30 seconds is
returned unchanged, but `addFrequency` keys annotation on text alone: with
three recent console errors reading "boom", a fourth "boom" console error
from before the window is annotated too (its timestamp fails the window
check, second conjunct). -/
theorem addFrequency_tags_event_outside_window :
    (addFrequency "2024-01-01T00:00:30.000Z"
        [BufferedEvent.console "2024-01-01T00:00:00.000Z" .error none "boom" .page,
         BufferedEvent.console "2024-01-01T00:00:35.000Z" .error none "boom" .page,
         BufferedEvent.console "2024-01-01T00:00:40.000Z" .error none "boom" .page,
         BufferedEvent.console "2024-01-01T00:00:45.000Z" .error none "boom" .page])[0]?
      = some (BufferedEvent.console "2024-01-01T00:00:00.000Z" .error none "boom" .page,
          some "repeated 3x in 30s") ∧
    jsLe "2024-01-01T00:00:30.000Z" "2024-01-01T00:00:00.000Z" = false := by
  decide

/-- A decimal digit is not `'-'`, `'+'` or whitespace, so `parseInt` treats a
digit-led token literally. -/
theorem digit_not_whitespace (c : Char) (h : c.isDigit = true) :
    c.isWhitespace = false := by
  by_contra hw
  rw [Bool.not_eq_false] at hw
  simp only [Char.isWhitespace, Bool.or_eq_true, decide_eq_true_eq] at hw
  rcases hw with ((rfl | rfl) | rfl) | rfl <;> exact absurd h (by decide)

theorem takeWhile_digits (ds : List Char) (h : ∀ c ∈ ds, c.isDigit = true) :
    ds.takeWhile Char.isDigit = ds := by
  induction ds with
  | nil => rfl
  | cons c rest ih =>
    rw [List.takeWhile_cons, if_pos (h c (by simp)),
      ih (fun x hx => h x (by simp [hx]))]

/-- `parseInt(s, 10)` on a non-empty all-digit string is its decimal value. -/
theorem jsParseInt_digits (ds : List Char) (hne : ds ≠ [])
    (hd : ∀ c ∈ ds, c.isDigit = true) :
    jsParseInt ⟨ds⟩ = some ((parseIntDigits ds : Nat) : Int) := by
  obtain ⟨c, rest, rfl⟩ : ∃ c rest, ds = c :: rest := by
    cases ds with
    | nil => exact absurd rfl hne
    | cons c rest => exact ⟨c, rest, rfl⟩
  have hc : c.isDigit = true := hd c (by simp)
  have hm : c ≠ '-' := by rintro rfl; exact absurd hc (by decide)
  have hp : c ≠ '+' := by rintro rfl; exact absurd hc (by decide)
  have hdrop : (⟨c :: rest⟩ : String).data.dropWhile Char.isWhitespace
      = c :: rest := by
    show (c :: rest).dropWhile Char.isWhitespace = c :: rest
    rw [List.dropWhile_cons, digit_not_whitespace c hc]
    simp
  unfold jsParseInt
  rw [hdrop]
  split
  · next r heq =>
    injection heq with h1 _
    exact absurd h1 hm
  · next r heq =>
    injection heq with h1 _
    exact absurd h1 hp
  · next =>
    rw [takeWhile_digits (c :: rest) hd]
    simp [List.isEmpty]

/-- An all-digit token never ends in `"xx"`. -/
theorem jsEndsWith_xx_false_of_digits (ds : List Char) (hne : ds ≠ [])
    (hd : ∀ c ∈ ds, c.isDigit = true) : jsEndsWith ⟨ds⟩ "xx" = false := by
  unfold jsEndsWith
  rw [show ("xx" : String).data.reverse = ['x', 'x'] from rfl,
    show (⟨ds⟩ : String).data = ds from rfl]
  cases hrev : ds.reverse with
  | nil => exact absurd (List.reverse_eq_nil_iff.mp hrev) hne
  | cons e rest =>
    have he : e.isDigit = true := by
      apply hd
      rw [← List.mem_reverse, hrev]
      simp
    have hx : ('x' == e) = false := by
      rw [beq_eq_false_iff_ne]
      rintro rfl
      exact absurd he (by decide)
    simp [List.isPrefixOf, hx]

/-- Every token of the form `Nxx` (a decimal digit followed by `"xx"`)
matches exactly the statuses whose quotient by 100 is the digit's value. -/
theorem statusTokenMatches_digit_xx (d : Char) (hd : d.isDigit = true) (st : Nat) :
    (statusTokenMatches ⟨[d, 'x', 'x']⟩ st = true ↔ st / 100 = d.toNat - 48) := by
  have hparse : jsParseInt ⟨[d]⟩ = some ((parseIntDigits [d] : Nat) : Int) :=
    jsParseInt_digits [d] (by simp) (by
      intro c hc
      simp at hc
      subst hc
      exact hd)
  have hval : parseIntDigits [d] = d.toNat - 48 := by simp [parseIntDigits]
  unfold statusTokenMatches
  rw [if_pos (show jsEndsWith ⟨[d, 'x', 'x']⟩ "xx" = true from rfl)]
  rw [show (⟨[d, 'x', 'x']⟩ : String).data.take 1 = [d] from rfl]
  rw [hparse, hval]
  simp only [beq_iff_eq, Nat.cast_inj]

/-- Every non-empty all-digit token matches exactly its own decimal value. -/
theorem statusTokenMatches_digits (ds : List Char) (hne : ds ≠ [])
    (hd : ∀ c ∈ ds, c.isDigit = true) (st : Nat) :
    (statusTokenMatches ⟨ds⟩ st = true ↔ st = parseIntDigits ds) := by
  have hend := jsEndsWith_xx_false_of_digits ds hne hd
  have hparse := jsParseInt_digits ds hne hd
  unfold statusTokenMatches
  rw [hend]
  simp only [Bool.false_eq_true, if_false]
  rw [hparse]
  simp only [beq_iff_eq, Nat.cast_inj]

/-- C5 (amended): in the GET /network status filter, every token of the form
`Nxx` (any decimal digit `N` followed by `"xx"`) matches a response iff its
status divided by 100 equals `N` — for `"4xx"` exactly the statuses 400–499,
so neither 399 nor 500 (nor a status of four or more digits such as 4000,
whose leading digit is also 4); every plain all-digit token matches only the
status equal to its decimal value (`"404"` matches only 404); a
`network_error` event always passes when a status filter is active; and a
response passes iff at least one comma-separated (trimmed) token matches
it. -/
theorem networkStatusFilter_semantics :
    (∀ d : Char, d.isDigit = true → ∀ st : Nat,
      statusTokenMatches ⟨[d, 'x', 'x']⟩ st = true ↔ st / 100 = d.toNat - 48) ∧
    (∀ N : Nat, N ≤ 9 → ∀ st : Nat,
      statusTokenMatches (toString N ++ "xx") st = true ↔ st / 100 = N) ∧
    (∀ ds : List Char, ds ≠ [] → (∀ c ∈ ds, c.isDigit = true) → ∀ st : Nat,
      statusTokenMatches ⟨ds⟩ st = true ↔ st = parseIntDigits ds) ∧
    (∀ st : Nat, statusTokenMatches "4xx" st = true ↔ st / 100 = 4) ∧
    (∀ st : Nat, statusTokenMatches "4xx" st = true ↔ (400 ≤ st ∧ st ≤ 499)) ∧
    statusTokenMatches "4xx" 399 = false ∧
    statusTokenMatches "4xx" 500 = false ∧
    (∀ st : Nat, statusTokenMatches "404" st = true ↔ st = 404) ∧
    (∀ (statusParam ts : String) (label : Option String) (err rt url : String)
      (src : Source),
      networkStatusFilter statusParam
        (.networkError ts label err rt url src) = true) ∧
    (∀ (statusParam ts : String) (label : Option String) (st : Nat) (url : String)
      (src : Source),
      networkStatusFilter statusParam (.response ts label st url src)
        = ((jsSplitComma statusParam).map jsTrim).any fun r =>
            statusTokenMatches r st) := by
  have h4xx : ∀ st : Nat, statusTokenMatches "4xx" st
      = (((st / 100 : Nat) : Int) == (4 : Int)) := fun _ => rfl
  have h404 : ∀ st : Nat, statusTokenMatches "404" st
      = (((st : Nat) : Int) == (404 : Int)) := fun _ => rfl
  refine ⟨statusTokenMatches_digit_xx, ?_, statusTokenMatches_digits,
    ?_, ?_, by decide, by decide, ?_, ?_, ?_⟩
  · intro N hN st
    interval_cases N
    · exact statusTokenMatches_digit_xx '0' (by decide) st
    · exact statusTokenMatches_digit_xx '1' (by decide) st
    · exact statusTokenMatches_digit_xx '2' (by decide) st
    · exact statusTokenMatches_digit_xx '3' (by decide) st
    · exact statusTokenMatches_digit_xx '4' (by decide) st
    · exact statusTokenMatches_digit_xx '5' (by decide) st
    · exact statusTokenMatches_digit_xx '6' (by decide) st
    · exact statusTokenMatches_digit_xx '7' (by decide) st
    · exact statusTokenMatches_digit_xx '8' (by decide) st
    · exact statusTokenMatches_digit_xx '9' (by decide) st
  · intro st
    rw [h4xx st]
    simp only [beq_iff_eq]
    omega
  · intro st
    rw [h4xx st]
    simp only [beq_iff_eq]
    omega
  · intro st
    rw [h404 st]
    simp only [beq_iff_eq]
    omega
  · intro p ts label err rt url src
    rfl
  · intro p ts label st url src
    rfl

/-- C5 (counterexample): the claim reads "a token `Nxx` matches a response iff
the leading decimal digit of its status is N", but a response with status
4000 — leading decimal digit 4 — does not match `"4xx"`
(`Math.floor(4000 / 100) = 40 ≠ 4`). -/
theorem statusToken_4xx_misses_status_4000 :
    statusTokenMatches "4xx" 4000 = false ∧ specLeadingDigit 4000 = 4 := by
  decide

/-- A ref absent from the elements is untouched by the table-building fold. -/
theorem foldl_set_not_mem (els : List SnapshotRef) :
    ∀ (m : RefMap) (r : Nat), r ∉ els.map SnapshotRef.ref →
      (els.foldl (fun m el => m.set el.ref el) m) r = m r := by
  induction els with
  | nil =>
    intro m r _
    rfl
  | cons el rest ih =>
    intro m r hr
    rw [List.map_cons] at hr
    have h1 : r ≠ el.ref := fun hh => hr (by simp [hh])
    have h2 : r ∉ rest.map SnapshotRef.ref := fun hh => hr (List.mem_cons_of_mem _ hh)
    rw [List.foldl_cons, ih _ r h2]
    simp [RefMap.set, h1]

/-- A ref assigned by some element resolves to one of the elements bearing it. -/
theorem foldl_set_mem (els : List SnapshotRef) :
    ∀ (m : RefMap) (r : Nat), (∃ el ∈ els, el.ref = r) →
      ∃ el ∈ els, el.ref = r ∧
        (els.foldl (fun m el => m.set el.ref el) m) r = some el := by
  induction els with
  | nil =>
    intro m r h
    simp at h
  | cons el rest ih =>
    intro m r hex
    by_cases hr : ∃ e ∈ rest, e.ref = r
    · obtain ⟨e, he, heq, hlook⟩ := ih (m.set el.ref el) r hr
      exact ⟨e, List.mem_cons_of_mem _ he, heq, by rw [List.foldl_cons]; exact hlook⟩
    · have hel : el.ref = r := by
        obtain ⟨e, he, heq⟩ := hex
        rcases List.mem_cons.mp he with h1 | h2
        · rw [← h1]
          exact heq
        · exact absurd ⟨e, h2, heq⟩ hr
      have hnot : r ∉ rest.map SnapshotRef.ref := by
        intro hm
        rcases List.mem_map.mp hm with ⟨e, he, heq⟩
        exact hr ⟨e, he, heq⟩
      refine ⟨el, List.mem_cons_self _ _, hel, ?_⟩
      rw [List.foldl_cons, foldl_set_not_mem rest _ r hnot]
      simp [RefMap.set, hel]

/-- C6: resolving a ref (as POST /click and POST /fill do) returns the stored
selector iff the ref is present in the table built by the most recent
snapshot, and otherwise fails with the structured stale/unknown-ref error —
the handler returns before performing any page action.  Each snapshot clears
and entirely repopulates the table (the previous contents are ignored:
replacement, not merge), so a ref an earlier snapshot assigned that the
newest snapshot did not re-assign fails to resolve, as does any ref before
the first snapshot. -/
theorem refMap_resolveRef_spec (old : RefMap) (els : List SnapshotRef) (r : Nat) :
    (∀ old2 : RefMap, snapshotUpdate old els = snapshotUpdate old2 els) ∧
    (r ∉ els.map SnapshotRef.ref →
      resolveRef (snapshotUpdate old els) r
        = .error ("Ref @" ++ toString r ++ " not found. Run snapshot first.")) ∧
    ((∃ el ∈ els, el.ref = r) →
      ∃ el ∈ els, el.ref = r ∧
        resolveRef (snapshotUpdate old els) r = .ok el.selector) ∧
    (∀ elsA : List SnapshotRef, r ∉ els.map SnapshotRef.ref →
      resolveRef (snapshotUpdate (snapshotUpdate old elsA) els) r
        = .error ("Ref @" ++ toString r ++ " not found. Run snapshot first.")) ∧
    resolveRef RefMap.empty r
      = .error ("Ref @" ++ toString r ++ " not found. Run snapshot first.") := by
  have hnone : ∀ (m0 : RefMap), r ∉ els.map SnapshotRef.ref →
      snapshotUpdate m0 els r = none := by
    intro m0 hnm
    unfold snapshotUpdate
    rw [foldl_set_not_mem els _ r hnm]
    rfl
  refine ⟨fun _ => rfl, ?_, ?_, ?_, rfl⟩
  · intro h
    unfold resolveRef
    rw [hnone old h]
  · intro hex
    obtain ⟨el, he, heq, hlook⟩ := foldl_set_mem els RefMap.empty r hex
    refine ⟨el, he, heq, ?_⟩
    unfold resolveRef snapshotUpdate
    rw [hlook]
  · intro elsA h
    unfold resolveRef
    rw [hnone _ h]

/-- The emission loop keeps the first `76 - r` candidates and numbers them
`r, r+1, …` when it starts at `ref = r ≤ 75`. -/
theorem assignRefsFrom_spec {C : Type} (cs : List C) :
    ∀ r : Nat, 1 ≤ r → r ≤ 75 →
      (assignRefsFrom r cs).map Prod.fst = List.range' r (min cs.length (76 - r)) ∧
      (assignRefsFrom r cs).map Prod.snd = cs.take (76 - r) := by
  induction cs with
  | nil =>
    intro r _ _
    simp [assignRefsFrom]
  | cons c rest ih =>
    intro r h1 h75
    by_cases hr : r + 1 > 75
    · have hre : r = 75 := by omega
      subst hre
      unfold assignRefsFrom
      rw [if_pos hr]
      constructor
      · rw [show min (c :: rest).length (76 - 75) = 1 by
          rw [List.length_cons]; omega]
        simp [List.range']
      · rw [show (76 : Nat) - 75 = 1 from rfl]
        simp
    · unfold assignRefsFrom
      rw [if_neg hr]
      obtain ⟨ihf, ihs⟩ := ih (r + 1) (by omega) (by omega)
      constructor
      · simp only [List.map_cons, ihf]
        rw [show min (c :: rest).length (76 - r) = min rest.length (76 - (r + 1)) + 1 by
          rw [List.length_cons]; omega]
        rw [List.range'_succ]
      · simp only [List.map_cons, ihs]
        rw [show (76 : Nat) - r = (76 - (r + 1)) + 1 by omega]
        rfl

/-- C7: the snapshot capacity policy.  When shadow-hosted candidates exist the
kept list is exactly the first 50 main-document candidates followed by the
first 25 shadow-hosted ones; otherwise it is the first 75 main-document
candidates; the emitted list never exceeds 75 refs, its entries are the kept
candidates in order, and refs are assigned sequentially starting at 1. -/
theorem snapshot_capacity_policy {C : Type} (main shadow : List C) :
    (shadow ≠ [] →
      selectCandidates main shadow = main.take 50 ++ shadow.take 25) ∧
    (shadow = [] → selectCandidates main shadow = main.take 75) ∧
    (selectCandidates main shadow).length ≤ 75 ∧
    (assignRefs (selectCandidates main shadow)).length ≤ 75 ∧
    (assignRefs (selectCandidates main shadow)).map Prod.fst
      = List.range' 1 (min (selectCandidates main shadow).length 75) ∧
    (assignRefs (selectCandidates main shadow)).map Prod.snd
      = (selectCandidates main shadow).take 75 := by
  have hsel : (shadow ≠ [] →
      selectCandidates main shadow = main.take 50 ++ shadow.take 25) ∧
      (shadow = [] → selectCandidates main shadow = main.take 75) := by
    constructor
    · intro h
      have : shadow.length > 0 := List.length_pos.mpr h
      simp [selectCandidates, if_pos this]
    · intro h
      subst h
      simp [selectCandidates]
  have hlen : (selectCandidates main shadow).length ≤ 75 := by
    by_cases h : shadow = []
    · rw [hsel.2 h]
      exact List.length_take_le 75 main
    · rw [hsel.1 h]
      have h1 := List.length_take_le 50 main
      have h2 := List.length_take_le 25 shadow
      rw [List.length_append]
      omega
  obtain ⟨hf, hs⟩ := assignRefsFrom_spec (selectCandidates main shadow) 1
    (by omega) (by omega)
  refine ⟨hsel.1, hsel.2, hlen, ?_, ?_, ?_⟩
  · unfold assignRefs
    have := congrArg List.length hf
    rw [List.length_map, List.length_range'] at this
    rw [this]
    omega
  · exact hf
  · exact hs

/-- C8: selector synthesis follows the source's priority order — a truthy id
yields `'#' + CSS.escape(id)` (`<button id="go">` yields `#go`); otherwise a
truthy `data-testid` yields an attribute selector; otherwise a truthy
`aria-label`; otherwise, for `input` elements with a truthy `name`,
`input[name="…"]`; otherwise the ancestor path — validated by the uniqueness
re-query, which keeps a path resolving to exactly one element and otherwise
(also when the query throws) replaces it with a global `tag:nth-of-type(k)`
when the element is found among its tag's matches.  The path uses
`tag:nth-of-type(k)` steps exactly when same-tag siblings exist, so the
second of two `li` siblings under one parent gets a selector ending in
`li:nth-of-type(2)` whatever the re-query observes. -/
theorem selector_synthesis_priority :
    (∀ (e : Elem) (chain : List ElemCtx) (sh : Bool)
      (mc : String → Option Nat) (ti : Option Nat), jsTruthy e.id = true →
      innerSelector e chain sh mc ti = "#" ++ cssEscape (e.id.getD "")) ∧
    (∀ (e : Elem) (chain : List ElemCtx) (sh : Bool)
      (mc : String → Option Nat) (ti : Option Nat), jsTruthy e.id = false →
      jsTruthy e.testId = true →
      innerSelector e chain sh mc ti
        = "[data-testid=\"" ++ e.testId.getD "" ++ "\"]") ∧
    (∀ (e : Elem) (chain : List ElemCtx) (sh : Bool)
      (mc : String → Option Nat) (ti : Option Nat), jsTruthy e.id = false →
      jsTruthy e.testId = false → jsTruthy e.ariaLabel = true →
      innerSelector e chain sh mc ti
        = "[aria-label=\"" ++ escapeQuotes (e.ariaLabel.getD "") ++ "\"]") ∧
    (∀ (e : Elem) (chain : List ElemCtx) (sh : Bool)
      (mc : String → Option Nat) (ti : Option Nat), jsTruthy e.id = false →
      jsTruthy e.testId = false → jsTruthy e.ariaLabel = false →
      jsTruthy e.nameAttr = true → e.tag = "input" →
      innerSelector e chain sh mc ti
        = e.tag ++ "[name=\"" ++ e.nameAttr.getD "" ++ "\"]") ∧
    (∀ (e : Elem) (chain : List ElemCtx) (sh : Bool)
      (mc : String → Option Nat) (ti : Option Nat), jsTruthy e.id = false →
      jsTruthy e.testId = false → jsTruthy e.ariaLabel = false →
      (jsTruthy e.nameAttr = false ∨ e.tag ≠ "input") →
      innerSelector e chain sh mc ti
        = validatePath mc ti e.tag (buildPath chain sh)) ∧
    (∀ (mc : String → Option Nat) (ti : Option Nat) (tag path : String),
      mc path = some 1 → validatePath mc ti tag path = path) ∧
    (∀ (mc : String → Option Nat) (gi : Nat) (tag path : String) (n : Nat),
      mc path = some n → n ≠ 1 →
      validatePath mc (some gi) tag path
        = tag ++ ":nth-of-type(" ++ toString (gi + 1) ++ ")") ∧
    (∀ (mc : String → Option Nat) (gi : Nat) (tag path : String),
      mc path = none →
      validatePath mc (some gi) tag path
        = tag ++ ":nth-of-type(" ++ toString (gi + 1) ++ ")") ∧
    (∀ (mc : String → Option Nat) (tag path : String),
      mc path = none → validatePath mc none tag path = path) ∧
    (∀ (mc : String → Option Nat) (ti : Option Nat),
      innerSelector ⟨"button", some "go", none, none, none⟩ [] false mc ti
        = "#go") ∧
    buildPath
      [⟨⟨"li", none, none, none, none⟩,
        some ([⟨"li", none, none, none, none⟩, ⟨"li", none, none, none, none⟩], 1)⟩,
       ⟨⟨"ul", none, none, none, none⟩, some ([⟨"ul", none, none, none, none⟩], 0)⟩]
      false
      = "body > ul > li:nth-of-type(2)" ∧
    (∀ mc : String → Option Nat,
      jsEndsWith
        (innerSelector ⟨"li", none, none, none, none⟩
          [⟨⟨"li", none, none, none, none⟩,
            some ([⟨"li", none, none, none, none⟩, ⟨"li", none, none, none, none⟩], 1)⟩,
           ⟨⟨"ul", none, none, none, none⟩, some ([⟨"ul", none, none, none, none⟩], 0)⟩]
          false mc (some 1))
        "li:nth-of-type(2)" = true) := by
  refine ⟨?_, ?_, ?_, ?_, ?_, ?_, ?_, ?_, ?_, fun _ _ => rfl, by decide, ?_⟩
  · intro e chain sh mc ti h1
    simp [innerSelector, h1]
  · intro e chain sh mc ti h1 h2
    simp [innerSelector, h1, h2]
  · intro e chain sh mc ti h1 h2 h3
    simp [innerSelector, h1, h2, h3]
  · intro e chain sh mc ti h1 h2 h3 h4 h5
    simp [innerSelector, h1, h2, h3, h4, h5]
  · intro e chain sh mc ti h1 h2 h3 h4
    rcases h4 with h4 | h4
    · simp [innerSelector, h1, h2, h3, h4]
    · have : (e.tag == "input") = false := by
        simpa using h4
      simp [innerSelector, h1, h2, h3, this]
  · intro mc ti tag path h1
    unfold validatePath
    rw [h1]
    simp
  · intro mc gi tag path n h1 h2
    unfold validatePath
    rw [h1]
    simp [h2]
  · intro mc gi tag path h1
    unfold validatePath
    rw [h1]
  · intro mc tag path h1
    unfold validatePath
    rw [h1]
  · intro mc
    rw [show innerSelector ⟨"li", none, none, none, none⟩
        [⟨⟨"li", none, none, none, none⟩,
          some ([⟨"li", none, none, none, none⟩, ⟨"li", none, none, none, none⟩], 1)⟩,
         ⟨⟨"ul", none, none, none, none⟩, some ([⟨"ul", none, none, none, none⟩], 0)⟩]
        false mc (some 1)
        = validatePath mc (some 1) "li" "body > ul > li:nth-of-type(2)" from rfl]
    unfold validatePath
    cases hmc : mc "body > ul > li:nth-of-type(2)" with
    | none => decide
    | some n =>
      by_cases hn : n = 1
      · subst hn
        simp
        decide
      · simp [hn]
        decide

/-- The timer-count invariant is preserved by every step of the reconnection
machine. -/
theorem connStep_pending {a b : ConnState} (h : ConnStep a b)
    (ih : a.pending = if a.reconnecting then 1 else 0) :
    b.pending = if b.reconnecting then 1 else 0 := by
  cases h with
  | disconnect =>
    unfold onDisconnect scheduleReconnect
    by_cases hrec : a.reconnecting
    · simpa [hrec] using ih
    · simp [hrec] at ih
      simp [hrec, ih]
  | fail hp =>
    simpa [attemptFail] using ih
  | succeed hp =>
    have hrec : a.reconnecting = true := by
      by_contra hc
      simp [hc] at ih
      omega
    rw [hrec] at ih
    simp at ih
    simp [attemptSucceed, ih]

/-- Reachability invariant of the reconnection machine: exactly one timer is
armed while `reconnecting` is set, and none otherwise. -/
theorem connReachable_pending_eq (s : ConnState) (h : ConnReachable s) :
    s.pending = if s.reconnecting then 1 else 0 := by
  induction h with
  | refl => rfl
  | tail _ hstep ih => exact connStep_pending hstep ih

/-- C9: reconnection backoff and single-flight guarantee.  After a disconnect
from a non-reconnecting state the first three retry waits are 1000 ms,
2000 ms and 4000 ms; every failure doubles the wait, capping it at 10000 ms,
and the wait never exceeds 10000 ms; `scheduleReconnect` is a no-op while a
reconnection is already in flight, and in every reachable state at most one
reconnection timer is armed; a successful `connectCDP` clears `reconnecting`,
sets `connected`, and the next disconnect's reconnection starts again at
1000 ms. -/
theorem reconnect_backoff_single_flight :
    (∀ s : ConnState, s.reconnecting = false →
      (onDisconnect s).delay = 1000 ∧
      (attemptFail (onDisconnect s)).delay = 2000 ∧
      (attemptFail (attemptFail (onDisconnect s))).delay = 4000) ∧
    (∀ (s : ConnState) (k : Nat),
      (attemptFail^[k + 1] s).delay = min ((attemptFail^[k] s).delay * 2) 10000) ∧
    (∀ s : ConnState, s.delay ≤ 10000 → ∀ k : Nat,
      (attemptFail^[k] s).delay ≤ 10000) ∧
    (∀ s : ConnState, s.reconnecting = true → scheduleReconnect s = s) ∧
    (∀ s : ConnState, ConnReachable s → s.pending ≤ 1) ∧
    (∀ s : ConnState, 0 < s.pending →
      (attemptSucceed s).reconnecting = false ∧
      (attemptSucceed s).connected = true ∧
      (scheduleReconnect (attemptSucceed s)).delay = 1000) := by
  refine ⟨?_, ?_, ?_, ?_, ?_, ?_⟩
  · intro s h
    refine ⟨?_, ?_, ?_⟩ <;>
      simp [onDisconnect, scheduleReconnect, attemptFail, h]
  · intro s k
    rw [Function.iterate_succ_apply']
    rfl
  · intro s hs k
    induction k with
    | zero => simpa using hs
    | succ n ih =>
      rw [Function.iterate_succ_apply']
      simp only [attemptFail]
      omega
  · intro s h
    unfold scheduleReconnect
    rw [if_pos h]
  · intro s h
    have := connReachable_pending_eq s h
    by_cases hrec : s.reconnecting
    · rw [hrec] at this
      simp at this
      omega
    · simp at hrec
      rw [hrec] at this
      simp at this
      omega
  · intro s h
    refine ⟨rfl, rfl, ?_⟩
    simp [scheduleReconnect, attemptSucceed]

end AgentCrx
